import Mathlib

/-!
Shallow embedding of the processing-run lifecycle of the Foundry server
(`src/server/src/services/processing.service.ts`,
`src/server/src/services/auth.service.ts`,
`src/server/src/services/sources.service.ts`,
`src/server/src/db/schema.ts`, `src/server/src/errors/index.ts`).

Database tables become lists of rows; each drizzle query/update becomes a
pure function on a `DB` value; a service function that can `throw` returns
`Except AppError _`.  Timestamps (`new Date()`) are abstracted as natural
numbers passed in as `now`.  The asynchronous pipeline `simulateProcessing`
is embedded as the ordered list of database writes it performs
(`simulateProcessingSteps`), so that arbitrary interleavings with
`cancelRun` can be analysed.
-/

namespace Foundry

/-- Run status enum `run_status` from `db/schema.ts`. -/
inductive RunStatus where
  | pending
  | running
  | completed
  | failed
  | cancelled
deriving DecidableEq, Repr

/-- Source status enum `source_status` from `db/schema.ts`. -/
inductive SourceStatus where
  | pending
  | syncing
  | ready
  | error
deriving DecidableEq, Repr

/-- Source type enum `source_type` from `db/schema.ts`. -/
inductive SourceType where
  | file
  | teamwork
deriving DecidableEq, Repr

/-- Output format of a processing configuration (`'conversational' | 'qa' | 'json'`). -/
inductive OutputFormat where
  | conversational
  | qa
  | json
deriving DecidableEq, Repr

/-- Quality filters of a processing configuration. -/
structure QualityFilters where
  minLength : Nat
  maxLength : Nat
deriving DecidableEq, Repr

/-- The typed `config` jsonb column of `processing_configs`. -/
structure ProcessingConfig where
  outputFormat : OutputFormat
  includeMetadata : Bool
  chunkSize : Nat
  qualityFilters : QualityFilters
deriving DecidableEq, Repr

/-- Hard-coded default returned by `getProcessingConfig` when no row is
persisted (`processing.service.ts` lines 42-47). -/
def defaultProcessingConfig : ProcessingConfig :=
  { outputFormat := OutputFormat.conversational
    includeMetadata := true
    chunkSize := 1000
    qualityFilters := { minLength := 10, maxLength := 10000 } }

/-- The untyped `config` jsonb column of `processing_runs`.  `createProcessingRun`
stores `config?.config || {}`: either the project's persisted typed config or
the empty JSON object. -/
inductive RunConfigSnapshot where
  | emptyObj
  | ofConfig (c : ProcessingConfig)
deriving DecidableEq, Repr

/-- The typed `stats` jsonb column of `processing_runs`. -/
structure RunStats where
  totalRecords : Nat
  processedRecords : Nat
  piiDetected : Nat
  piiMasked : Nat
deriving DecidableEq, Repr

/-- The typed `stats` jsonb column of `datasets`. -/
structure DatasetStats where
  totalConversations : Nat
  avgConversationLength : ℚ
  uniqueSpeakers : Nat
deriving DecidableEq, Repr

/-- A row of the `projects` table (columns the run lifecycle reads). -/
structure Project where
  id : Nat
  organizationId : Nat
  deletedAt : Option Nat
deriving DecidableEq, Repr

/-- A row of the `sources` table (columns the modelled operations touch). -/
structure Source where
  id : Nat
  projectId : Nat
  type : SourceType
  status : SourceStatus
  recordCount : Option Nat
  lastSyncAt : Option Nat
  updatedAt : Nat
deriving DecidableEq, Repr

/-- A row of the `processing_configs` table. -/
structure ProcessingConfigRow where
  id : Nat
  projectId : Nat
  config : ProcessingConfig
deriving DecidableEq, Repr

/-- A row of the `processing_runs` table. -/
structure Run where
  id : Nat
  projectId : Nat
  status : RunStatus
  progress : Nat
  startedAt : Option Nat
  completedAt : Option Nat
  error : Option String
  errorDetails : Option String
  config : RunConfigSnapshot
  stats : Option RunStats
  createdAt : Nat
  updatedAt : Nat
deriving DecidableEq, Repr

/-- A row of the `datasets` table. -/
structure Dataset where
  id : Nat
  runId : Nat
  name : String
  format : String
  recordCount : Option Nat
  stats : Option DatasetStats
  createdAt : Nat
deriving DecidableEq, Repr

/-- The database state: one list per table plus serial-id counters. -/
structure DB where
  projects : List Project
  sources : List Source
  processingConfigs : List ProcessingConfigRow
  runs : List Run
  datasets : List Dataset
  nextRunId : Nat
  nextDatasetId : Nat
deriving DecidableEq, Repr

/-- Structured application error (`errors/index.ts`): HTTP status code,
machine code, message, and the optional `{ code: ... }` details object. -/
structure AppError where
  statusCode : Nat
  code : String
  message : String
  detailsCode : Option String
deriving DecidableEq, Repr

/-- `new NotFoundError(resource)` → 404, `NOT_FOUND`, `"<resource> not found"`. -/
def notFoundError (resource : String) : AppError :=
  { statusCode := 404, code := "NOT_FOUND", message := resource ++ " not found"
    detailsCode := none }

/-- `new ValidationError(message, details)` → 422, `VALIDATION_ERROR`. -/
def validationError (message : String) (detailsCode : Option String) : AppError :=
  { statusCode := 422, code := "VALIDATION_ERROR", message := message
    detailsCode := detailsCode }

/-- `new BadRequestError(message)` → 400, `BAD_REQUEST`. -/
def badRequestError (message : String) : AppError :=
  { statusCode := 400, code := "BAD_REQUEST", message := message, detailsCode := none }

/-- `new ConflictError(message, code)` → 409. -/
def conflictError (message : String) (code : String) : AppError :=
  { statusCode := 409, code := code, message := message, detailsCode := none }

/-- `new InternalServerError()` → 500. -/
def internalServerError : AppError :=
  { statusCode := 500, code := "INTERNAL_ERROR", message := "Internal server error"
    detailsCode := none }

/-- Kernel-computable equality test for `Except` results. -/
instance {ε α : Type} [DecidableEq ε] [DecidableEq α] : DecidableEq (Except ε α) := fun a b =>
  match a, b with
  | Except.error x, Except.error y =>
    if h : x = y then Decidable.isTrue (congrArg Except.error h)
    else Decidable.isFalse (fun hc => h (Except.error.inj hc))
  | Except.error _, Except.ok _ => Decidable.isFalse (fun hc => Except.noConfusion hc)
  | Except.ok _, Except.error _ => Decidable.isFalse (fun hc => Except.noConfusion hc)
  | Except.ok x, Except.ok y =>
    if h : x = y then Decidable.isTrue (congrArg Except.ok h)
    else Decidable.isFalse (fun hc => h (Except.ok.inj hc))

/-- `verifyProject` from `processing.service.ts`: project must exist, belong to
the organization, and not be soft-deleted. -/
def verifyProject (db : DB) (projectId organizationId : Nat) : Except AppError Project :=
  match db.projects.find? (fun p =>
      p.id == projectId && p.organizationId == organizationId && p.deletedAt.isNone) with
  | some p => Except.ok p
  | none => Except.error (notFoundError "Project")

/-- `getProcessingConfig`: the project's persisted config, or the hard-coded
default when none is persisted. -/
def getProcessingConfig (db : DB) (projectId organizationId : Nat) :
    Except AppError ProcessingConfig :=
  match verifyProject db projectId organizationId with
  | Except.error e => Except.error e
  | Except.ok _ =>
    match db.processingConfigs.find? (fun c => c.projectId == projectId) with
    | some c => Except.ok c.config
    | none => Except.ok defaultProcessingConfig

/-- The fields of the created run that `createProcessingRun` returns. -/
structure CreatedRunView where
  id : Nat
  status : RunStatus
  progress : Nat
  createdAt : Nat
deriving DecidableEq, Repr

/-- `createProcessingRun` from `processing.service.ts` (lines 89-140), up to but
not including the fire-and-forget `simulateProcessing(run.id)` call, whose
database writes are modelled separately as `simulateProcessingSteps`.
Returns the response view together with the updated database. -/
def createProcessingRun (db : DB) (projectId organizationId now : Nat) :
    Except AppError (CreatedRunView × DB) :=
  match verifyProject db projectId organizationId with
  | Except.error e => Except.error e
  | Except.ok _ =>
  match db.runs.find? (fun r => r.projectId == projectId && r.status == RunStatus.running) with
  | some _ =>
    Except.error (validationError "A processing run is already active" (some "RUN_ALREADY_RUNNING"))
  | none =>
    let projectSources := db.sources.filter (fun s =>
      s.projectId == projectId && s.status == SourceStatus.ready)
    if projectSources.length == 0 then
      Except.error (validationError "No ready sources configured for project"
        (some "NO_SOURCES_CONFIGURED"))
    else
      let config := db.processingConfigs.find? (fun c => c.projectId == projectId)
      let run : Run :=
        { id := db.nextRunId
          projectId := projectId
          status := RunStatus.pending
          progress := 0
          startedAt := none
          completedAt := none
          error := none
          errorDetails := none
          config :=
            match config with
            | some c => RunConfigSnapshot.ofConfig c.config
            | none => RunConfigSnapshot.emptyObj
          stats := none
          createdAt := now
          updatedAt := now }
      Except.ok
        ({ id := run.id, status := run.status, progress := run.progress
           createdAt := run.createdAt },
         { db with runs := db.runs ++ [run], nextRunId := db.nextRunId + 1 })

/-- The run row `createProcessingRun` inserts on its success path. -/
def newRunOf (db : DB) (projectId now : Nat) : Run :=
  { id := db.nextRunId
    projectId := projectId
    status := RunStatus.pending
    progress := 0
    startedAt := none
    completedAt := none
    error := none
    errorDetails := none
    config :=
      match db.processingConfigs.find? (fun c => c.projectId == projectId) with
      | some c => RunConfigSnapshot.ofConfig c.config
      | none => RunConfigSnapshot.emptyObj
    stats := none
    createdAt := now
    updatedAt := now }

/-- `UPDATE processing_runs SET ... WHERE id = runId`. -/
def updateRun (db : DB) (runId : Nat) (f : Run → Run) : DB :=
  { db with runs := db.runs.map (fun r => if r.id == runId then f r else r) }

/-- The hard-coded stats `simulateProcessing` writes on completion. -/
def completedRunStats : RunStats :=
  { totalRecords := 100, processedRecords := 100, piiDetected := 15, piiMasked := 15 }

/-- The hard-coded stats of the dataset `simulateProcessing` inserts. -/
def materializedDatasetStats : DatasetStats :=
  { totalConversations := 50, avgConversationLength := (9 : ℚ) / 2, uniqueSpeakers := 25 }

/-- The dataset insert at the end of `simulateProcessing` (lines 179-189).
The partial unique index `datasets_run_idx` on `run_id` (schema.ts line 308 /
the `.unique()` on line 295) makes a second insert for the same run fail at
the database; that failed insert leaves the table unchanged, which is how the
guard is modelled here. -/
def insertDatasetForRun (db : DB) (runId now : Nat) : DB :=
  if db.datasets.any (fun d => d.runId == runId) then db
  else
    { db with
      datasets := db.datasets ++
        [{ id := db.nextDatasetId
           runId := runId
           name := "Dataset from Run " ++ toString runId
           format := "conversational"
           recordCount := some 100
           stats := some materializedDatasetStats
           createdAt := now }]
      nextDatasetId := db.nextDatasetId + 1 }

/-- One database write performed by `simulateProcessing`. -/
inductive PipelineStep where
  | start
  | setProgress (p : Nat)
  | complete
  | insertDataset
deriving DecidableEq, Repr

/-- The ordered sequence of database writes `simulateProcessing(runId)`
performs (lines 145-190): mark running with a start time, then the progress
loop 10,20,...,100, then the completion update (status, progress 100,
completion time, stats), then the dataset insert. -/
def simulateProcessingSteps : List PipelineStep :=
  [PipelineStep.start,
   PipelineStep.setProgress 10, PipelineStep.setProgress 20, PipelineStep.setProgress 30,
   PipelineStep.setProgress 40, PipelineStep.setProgress 50, PipelineStep.setProgress 60,
   PipelineStep.setProgress 70, PipelineStep.setProgress 80, PipelineStep.setProgress 90,
   PipelineStep.setProgress 100,
   PipelineStep.complete, PipelineStep.insertDataset]

/-- The column payload of the `status: 'running'` update (line 147-150). -/
def setRunning (now : Nat) (r : Run) : Run :=
  { r with status := RunStatus.running, startedAt := some now }

/-- The column payload of a progress-loop update (lines 155-158). -/
def setProgressTo (p : Nat) (r : Run) : Run :=
  { r with progress := p }

/-- The column payload of the completion update (lines 162-176). -/
def setCompleted (now : Nat) (r : Run) : Run :=
  { r with status := RunStatus.completed, progress := 100
           completedAt := some now, stats := some completedRunStats }

/-- Effect on the database of a single `simulateProcessing` write.  Every
update is unconditional (`WHERE id = runId` only), exactly as in the source:
no write checks the current status first. -/
def applyPipelineStep (db : DB) (runId now : Nat) : PipelineStep → DB
  | PipelineStep.start => updateRun db runId (setRunning now)
  | PipelineStep.setProgress p => updateRun db runId (setProgressTo p)
  | PipelineStep.complete => updateRun db runId (setCompleted now)
  | PipelineStep.insertDataset => insertDatasetForRun db runId now

/-- `verifyRun` from `auth.service.ts` (lines 511-524): load the run together
with its project and fail with the same `NotFoundError('Processing run')`
whether the run is missing or belongs to another organization.  A run whose
project row were absent would crash in the source (`run.project` undefined);
the `processing_runs.project_id` foreign key rules that out, and the case is
mapped to a 500 here. -/
def verifyRun (db : DB) (runId organizationId : Nat) : Except AppError Run :=
  match db.runs.find? (fun r => r.id == runId) with
  | none => Except.error (notFoundError "Processing run")
  | some run =>
    match db.projects.find? (fun p => p.id == run.projectId) with
    | none => Except.error internalServerError
    | some project =>
      if project.organizationId == organizationId then Except.ok run
      else Except.error (notFoundError "Processing run")

/-- The view `getRun` returns. -/
structure RunView where
  id : Nat
  projectId : Nat
  status : RunStatus
  progress : Nat
  startedAt : Option Nat
  completedAt : Option Nat
  error : Option String
  errorDetails : Option String
  stats : Option RunStats
  config : RunConfigSnapshot
  createdAt : Nat
deriving DecidableEq, Repr

/-- `getRun` from `auth.service.ts`. -/
def getRun (db : DB) (runId organizationId : Nat) : Except AppError RunView :=
  match verifyRun db runId organizationId with
  | Except.error e => Except.error e
  | Except.ok run =>
  Except.ok
    { id := run.id, projectId := run.projectId, status := run.status
      progress := run.progress, startedAt := run.startedAt, completedAt := run.completedAt
      error := run.error, errorDetails := run.errorDetails, stats := run.stats
      config := run.config, createdAt := run.createdAt }

/-- The column payload of the cancel update (`auth.service.ts` lines 557-564). -/
def setCancelled (now : Nat) (r : Run) : Run :=
  { r with status := RunStatus.cancelled, completedAt := some now, updatedAt := now }

/-- `cancelRun` from `auth.service.ts` (lines 550-565): reject unless the
status is `pending` or `running`, otherwise set status `cancelled` with a
completion timestamp. -/
def cancelRun (db : DB) (runId organizationId now : Nat) : Except AppError DB :=
  match verifyRun db runId organizationId with
  | Except.error e => Except.error e
  | Except.ok run =>
  if run.status == RunStatus.pending || run.status == RunStatus.running then
    Except.ok (updateRun db runId (setCancelled now))
  else
    Except.error (validationError "Run cannot be cancelled" (some "RUN_NOT_CANCELLABLE"))

/-- The view `getRunStatus` returns. -/
structure RunStatusView where
  id : Nat
  status : RunStatus
  progress : Nat
  startedAt : Option Nat
  completedAt : Option Nat
  error : Option String
deriving DecidableEq, Repr

/-- `getRunStatus` from `auth.service.ts`. -/
def getRunStatus (db : DB) (runId organizationId : Nat) : Except AppError RunStatusView :=
  match verifyRun db runId organizationId with
  | Except.error e => Except.error e
  | Except.ok run =>
  Except.ok
    { id := run.id, status := run.status, progress := run.progress
      startedAt := run.startedAt, completedAt := run.completedAt, error := run.error }

/-- The view `getRunDataset` returns. -/
structure DatasetView where
  id : Nat
  name : String
  format : String
  recordCount : Option Nat
  stats : Option DatasetStats
  createdAt : Nat
deriving DecidableEq, Repr

/-- `getRunDataset` from `auth.service.ts` (lines 606-625): `NotFound`
('Dataset') exactly when no dataset row references the run. -/
def getRunDataset (db : DB) (runId organizationId : Nat) : Except AppError DatasetView :=
  match verifyRun db runId organizationId with
  | Except.error e => Except.error e
  | Except.ok _ =>
  match db.datasets.find? (fun d => d.runId == runId) with
  | none => Except.error (notFoundError "Dataset")
  | some d =>
    Except.ok
      { id := d.id, name := d.name, format := d.format
        recordCount := d.recordCount, stats := d.stats, createdAt := d.createdAt }

/-- `verifySource` from `sources.service.ts`: same indistinguishable
`NotFoundError('Source')` for a missing source and a source of another
organization. -/
def verifySource (db : DB) (sourceId organizationId : Nat) : Except AppError Source :=
  match db.sources.find? (fun s => s.id == sourceId) with
  | none => Except.error (notFoundError "Source")
  | some source =>
    match db.projects.find? (fun p => p.id == source.projectId) with
    | none => Except.error internalServerError
    | some project =>
      if project.organizationId == organizationId then Except.ok source
      else Except.error (notFoundError "Source")

/-- `UPDATE sources SET ... WHERE id = sourceId`. -/
def updateSource (db : DB) (sourceId : Nat) (f : Source → Source) : DB :=
  { db with sources := db.sources.map (fun s => if s.id == sourceId then f s else s) }

/-- `triggerSync` from `sources.service.ts` (lines 266-294), up to the
`setTimeout` completion callback (modelled separately as `completeSync`):
only `teamwork` sources may be synced; on success the status becomes
`syncing` and the message `'Sync started'` is returned. -/
def triggerSync (db : DB) (sourceId organizationId now : Nat) :
    Except AppError (String × DB) :=
  match verifySource db sourceId organizationId with
  | Except.error e => Except.error e
  | Except.ok source =>
  if source.type == SourceType.teamwork then
    Except.ok ("Sync started",
      updateSource db sourceId (fun s =>
        { s with status := SourceStatus.syncing, updatedAt := now }))
  else
    Except.error (badRequestError "Only Teamwork sources can be synced")

/-- The `setTimeout` body inside `triggerSync`: mark the source `ready` with
`lastSyncAt` and the simulated record count 100. -/
def completeSync (db : DB) (sourceId now : Nat) : DB :=
  updateSource db sourceId (fun s =>
    { s with status := SourceStatus.ready, lastSyncAt := some now
             recordCount := some 100, updatedAt := now })

/-- Database effect of a `createProcessingRun` request: the new database on
success, the unchanged database when the request fails (an error response
performs no insert). -/
def applyCreateRun (db : DB) (projectId organizationId now : Nat) : DB :=
  match createProcessingRun db projectId organizationId now with
  | Except.ok x => x.2
  | Except.error _ => db

/-- Database effect of a `cancelRun` request: unchanged on error. -/
def applyCancelRun (db : DB) (runId organizationId now : Nat) : DB :=
  match cancelRun db runId organizationId now with
  | Except.ok db' => db'
  | Except.error _ => db

/-- Database effect of a `triggerSync` request: unchanged on error. -/
def applyTriggerSync (db : DB) (sourceId organizationId now : Nat) : DB :=
  match triggerSync db sourceId organizationId now with
  | Except.ok x => x.2
  | Except.error _ => db

/-- Whole-system state for analysing interleavings: the database plus, for
each run id, how many of that run's `simulateProcessingSteps` writes its
background pipeline task has already applied. -/
structure Sys where
  db : DB
  pos : Nat → Nat

/-- An atomic system event: a create-run request, the next pending database
write of some run's pipeline task, or a cancel request.  Each carries the
wall-clock value its `new Date()` calls observe. -/
inductive Event where
  | createRun (projectId organizationId now : Nat)
  | pipeStep (runId now : Nat)
  | cancel (runId organizationId now : Nat)
deriving DecidableEq, Repr

/-- Small-step semantics of one event. -/
def sysStep (s : Sys) : Event → Sys
  | Event.createRun pid org now =>
    match createProcessingRun s.db pid org now with
    | Except.ok x =>
      { db := x.2, pos := fun id => if id = s.db.nextRunId then 0 else s.pos id }
    | Except.error _ => s
  | Event.pipeStep runId now =>
    match simulateProcessingSteps.get? (s.pos runId) with
    | some st =>
      { db := applyPipelineStep s.db runId now st
        pos := fun id => if id = runId then s.pos runId + 1 else s.pos id }
    | none => s
  | Event.cancel runId org now => { s with db := applyCancelRun s.db runId org now }

/-- A pipeline event is meaningful only for an existing run whose task still
has writes left; requests are always permitted (they fail gracefully). -/
def validStep (s : Sys) : Event → Prop
  | Event.pipeStep runId _ =>
    (∃ r ∈ s.db.runs, r.id = runId) ∧ s.pos runId < simulateProcessingSteps.length
  | _ => True

instance : (s : Sys) → (e : Event) → Decidable (validStep s e)
  | _, Event.createRun _ _ _ => Decidable.isTrue trivial
  | s, Event.pipeStep runId _ =>
    inferInstanceAs (Decidable ((∃ r ∈ s.db.runs, r.id = runId) ∧
      s.pos runId < simulateProcessingSteps.length))
  | _, Event.cancel _ _ _ => Decidable.isTrue trivial

/-- Run a list of events. -/
def execTrace (s : Sys) (tr : List Event) : Sys := tr.foldl sysStep s

/-- Every event of the trace is valid in the state it executes from. -/
def ValidTrace : Sys → List Event → Prop
  | _, [] => True
  | s, e :: tr => validStep s e ∧ ValidTrace (sysStep s e) tr

def decValidTrace : (s : Sys) → (tr : List Event) → Decidable (ValidTrace s tr)
  | _, [] => Decidable.isTrue trivial
  | s, e :: tr => @instDecidableAnd _ _ inferInstance (decValidTrace (sysStep s e) tr)

instance (s : Sys) (tr : List Event) : Decidable (ValidTrace s tr) := decValidTrace s tr

/-- The progress value of a setProgress write. -/
def progressOf : PipelineStep → Option Nat
  | PipelineStep.setProgress p => some p
  | _ => none

/-- The progress values the pipeline will still write from position `k` on. -/
def futureProgress (k : Nat) : List Nat :=
  (simulateProcessingSteps.drop k).filterMap progressOf

/-- A dataset row owned by the given run exists. -/
def datasetExistsFor (db : DB) (runId : Nat) : Prop :=
  ∃ d ∈ db.datasets, d.runId = runId

/-- The list is sorted non-decreasingly (kernel-computable). -/
def sortedLE : List Nat → Prop
  | [] => True
  | [_] => True
  | a :: b :: rest => a ≤ b ∧ sortedLE (b :: rest)

def decSortedLE : (l : List Nat) → Decidable (sortedLE l)
  | [] => Decidable.isTrue trivial
  | [_] => Decidable.isTrue trivial
  | a :: b :: rest => @instDecidableAnd _ _ (Nat.decLe a b) (decSortedLE (b :: rest))

instance (l : List Nat) : Decidable (sortedLE l) := decSortedLE l

/-- Per-run inductive invariant relating a run row to its pipeline position. -/
def RunInv (db : DB) (pos : Nat → Nat) (r : Run) : Prop :=
  r.id < db.nextRunId ∧
  pos r.id ≤ simulateProcessingSteps.length ∧
  (r.status = RunStatus.pending → r.progress = 0 ∧ pos r.id = 0) ∧
  r.progress ≤ 100 ∧
  sortedLE (r.progress :: futureProgress (pos r.id)) ∧
  (12 ≤ pos r.id → r.status = RunStatus.completed ∧ r.progress = 100) ∧
  (r.status = RunStatus.completed → 12 ≤ pos r.id) ∧
  (pos r.id = 13 → datasetExistsFor db r.id)

/-- Global inductive invariant of the run/dataset subsystem. -/
def Inv (s : Sys) : Prop :=
  (s.db.runs.map Run.id).Nodup ∧
  (∀ r ∈ s.db.runs, RunInv s.db s.pos r) ∧
  (∀ d ∈ s.db.datasets, ∃ r ∈ s.db.runs, r.id = d.runId ∧ r.status = RunStatus.completed) ∧
  (s.db.datasets.map Dataset.runId).Nodup

instance (db : DB) (runId : Nat) : Decidable (datasetExistsFor db runId) :=
  inferInstanceAs (Decidable (∃ d ∈ db.datasets, d.runId = runId))

instance (db : DB) (pos : Nat → Nat) (r : Run) : Decidable (RunInv db pos r) :=
  inferInstanceAs (Decidable (
    r.id < db.nextRunId ∧
    pos r.id ≤ simulateProcessingSteps.length ∧
    (r.status = RunStatus.pending → r.progress = 0 ∧ pos r.id = 0) ∧
    r.progress ≤ 100 ∧
    sortedLE (r.progress :: futureProgress (pos r.id)) ∧
    (12 ≤ pos r.id → r.status = RunStatus.completed ∧ r.progress = 100) ∧
    (r.status = RunStatus.completed → 12 ≤ pos r.id) ∧
    (pos r.id = 13 → datasetExistsFor db r.id)))

instance (s : Sys) : Decidable (Inv s) :=
  inferInstanceAs (Decidable (
    (s.db.runs.map Run.id).Nodup ∧
    (∀ r ∈ s.db.runs, RunInv s.db s.pos r) ∧
    (∀ d ∈ s.db.datasets, ∃ r ∈ s.db.runs,
      r.id = d.runId ∧ r.status = RunStatus.completed) ∧
    (s.db.datasets.map Dataset.runId).Nodup))

/-- Status of the run with the given id, as a status poll would report it. -/
def runStatusOf (db : DB) (id : Nat) : Option RunStatus :=
  (db.runs.find? (fun r => r.id == id)).map Run.status

/-- Progress of the run with the given id (0 when absent). -/
def runProgress (db : DB) (id : Nat) : Nat :=
  match db.runs.find? (fun r => r.id == id) with
  | some r => r.progress
  | none => 0

/-! ### Concrete example states used to exercise the definitions -/

/-- A project of organization 1. -/
def exProject : Project := { id := 1, organizationId := 1, deletedAt := none }

/-- A ready file source of that project. -/
def exSource : Source :=
  { id := 1, projectId := 1, type := SourceType.file, status := SourceStatus.ready
    recordCount := none, lastSyncAt := none, updatedAt := 0 }

/-- A teamwork source of that project. -/
def exTeamworkSource : Source :=
  { id := 2, projectId := 1, type := SourceType.teamwork, status := SourceStatus.pending
    recordCount := none, lastSyncAt := none, updatedAt := 0 }

/-- Baseline database: one project, one ready source, no persisted config,
no runs, no datasets. -/
def exDB : DB :=
  { projects := [exProject], sources := [exSource], processingConfigs := []
    runs := [], datasets := [], nextRunId := 1, nextDatasetId := 1 }

/-- A pending run of project 1. -/
def exPendingRun : Run :=
  { id := 1, projectId := 1, status := RunStatus.pending, progress := 0
    startedAt := none, completedAt := none, error := none, errorDetails := none
    config := RunConfigSnapshot.emptyObj, stats := none, createdAt := 0, updatedAt := 0 }

/-- Baseline database with one pending run. -/
def exDBpending : DB := { exDB with runs := [exPendingRun], nextRunId := 2 }

/-- Baseline database with one running run. -/
def exDBrunning : DB :=
  { exDB with runs := [{ exPendingRun with status := RunStatus.running }], nextRunId := 2 }

/-- Baseline database whose only source is not ready. -/
def exDBnoReady : DB :=
  { exDB with sources := [{ exSource with status := SourceStatus.pending }] }

/-- Baseline database with the teamwork source alongside the file source. -/
def exDBteam : DB := { exDB with sources := [exSource, exTeamworkSource] }

/-- A processing configuration whose output format is `qa`. -/
def exConfigQa : ProcessingConfig :=
  { outputFormat := OutputFormat.qa, includeMetadata := true, chunkSize := 500
    qualityFilters := { minLength := 1, maxLength := 100 } }

/-- A completed run whose config snapshot asks for `qa` output. -/
def exRunQa : Run :=
  { exPendingRun with status := RunStatus.completed, progress := 100
                      config := RunConfigSnapshot.ofConfig exConfigQa }

/-- Baseline database holding the completed `qa`-snapshot run. -/
def exDBqa : DB := { exDB with runs := [exRunQa], nextRunId := 2 }

/-- Initial system state over the baseline database. -/
def exSys : Sys := { db := exDB, pos := fun _ => 0 }

/-- Create a run, let the pipeline start and report progress 10, then cancel. -/
def c2TracePre : List Event :=
  [Event.createRun 1 1 0, Event.pipeStep 1 1, Event.pipeStep 1 2, Event.cancel 1 1 3]

/-- The same, followed by the remaining 11 pipeline writes of the task that is
still running in the background. -/
def c2TraceFull : List Event := c2TracePre ++ List.replicate 11 (Event.pipeStep 1 4)

/-- Create a run and apply 12 of the 13 pipeline writes: the completion status
update has executed, the dataset insert has not yet. -/
def c3Trace : List Event :=
  Event.createRun 1 1 0 :: List.replicate 12 (Event.pipeStep 1 1)

/-- A short valid mixed trace. -/
def exTrace : List Event :=
  [Event.createRun 1 1 0, Event.pipeStep 1 1, Event.pipeStep 1 2, Event.cancel 1 1 3,
   Event.pipeStep 1 4]

/-! ### Generic helper lemmas about keyed row updates -/

lemma sortedLE_cons_cons {a b : Nat} {l : List Nat} :
    sortedLE (a :: b :: l) ↔ a ≤ b ∧ sortedLE (b :: l) := Iff.rfl

lemma sortedLE_single (a : Nat) : sortedLE [a] := trivial


lemma find?_map_key {α : Type} (key : α → Nat) (l : List α) (tid : Nat) (f : α → α)
    (hf : ∀ x, key (f x) = key x) (id : Nat) :
    (l.map (fun x => if key x == tid then f x else x)).find? (fun x => key x == id) =
    (l.find? (fun x => key x == id)).map (fun x => if key x == tid then f x else x) := by
  induction l with
  | nil => rfl
  | cons a l ih =>
    have hkey : key (if key a == tid then f a else a) = key a := by
      split
      · exact hf a
      · rfl
    have hpa : (key (if key a == tid then f a else a) == id) = (key a == id) := by
      rw [hkey]
    simp only [List.map_cons, List.find?_cons, hpa]
    cases hb : key a == id with
    | false =>
      simp only [ih]
    | true =>
      simp only [Option.map_some']

lemma map_key_map_ite {α : Type} (key : α → Nat) (l : List α) (tid : Nat) (f : α → α)
    (hf : ∀ x, key (f x) = key x) :
    (l.map (fun x => if key x == tid then f x else x)).map key = l.map key := by
  rw [List.map_map]
  apply List.map_congr_left
  intro a _
  dsimp only [Function.comp]
  split
  · exact hf a
  · rfl

lemma find?_updateRun (db : DB) (tid : Nat) (f : Run → Run)
    (hf : ∀ r, (f r).id = r.id) (id : Nat) :
    (updateRun db tid f).runs.find? (fun r => r.id == id) =
    (db.runs.find? (fun r => r.id == id)).map (fun r => if r.id == tid then f r else r) :=
  find?_map_key Run.id db.runs tid f hf id

lemma ids_updateRun (db : DB) (tid : Nat) (f : Run → Run)
    (hf : ∀ r, (f r).id = r.id) :
    (updateRun db tid f).runs.map Run.id = db.runs.map Run.id :=
  map_key_map_ite Run.id db.runs tid f hf

lemma id_eq_of_find? {l : List Run} {id : Nat} {r : Run}
    (h : l.find? (fun x => x.id == id) = some r) : r.id = id := by
  have := List.find?_some h
  simpa using this

lemma eq_of_mem_find? {l : List Run} (hnd : (l.map Run.id).Nodup) {r r' : Run}
    (hmem : r ∈ l) (hfind : l.find? (fun x => x.id == r.id) = some r') : r = r' := by
  have hmem' := List.mem_of_find?_eq_some hfind
  have hid : r'.id = r.id := id_eq_of_find? hfind
  exact List.inj_on_of_nodup_map hnd hmem hmem' hid.symm

lemma find?_isSome_of_mem {l : List Run} {r : Run} (hmem : r ∈ l) :
    ∃ r', l.find? (fun x => x.id == r.id) = some r' := by
  have : l.find? (fun x => x.id == r.id) ≠ none := by
    intro hnone
    have := List.find?_eq_none.mp hnone r hmem
    simp at this
  cases h : l.find? (fun x => x.id == r.id) with
  | none => exact absurd h this
  | some r' => exact ⟨r', rfl⟩

/-! ### Characterisations of the service functions -/

lemma createProcessingRun_success {db : DB} {projectId organizationId now : Nat} {p : Project}
    (hp : verifyProject db projectId organizationId = Except.ok p)
    (hrun : db.runs.find?
      (fun r => r.projectId == projectId && r.status == RunStatus.running) = none)
    (hsrc : (db.sources.filter
      (fun s => s.projectId == projectId && s.status == SourceStatus.ready)).length ≠ 0) :
    createProcessingRun db projectId organizationId now =
      Except.ok
        ({ id := db.nextRunId, status := RunStatus.pending, progress := 0, createdAt := now },
         { db with runs := db.runs ++ [newRunOf db projectId now]
                   nextRunId := db.nextRunId + 1 }) := by
  unfold createProcessingRun
  rw [hp, hrun, if_neg (by simpa using hsrc)]
  rfl

lemma createProcessingRun_activeRun {db : DB} {projectId organizationId now : Nat}
    {p : Project} {run : Run}
    (hp : verifyProject db projectId organizationId = Except.ok p)
    (hrun : db.runs.find?
      (fun r => r.projectId == projectId && r.status == RunStatus.running) = some run) :
    createProcessingRun db projectId organizationId now =
      Except.error (validationError "A processing run is already active"
        (some "RUN_ALREADY_RUNNING")) := by
  unfold createProcessingRun
  rw [hp, hrun]

lemma createProcessingRun_noReadySources {db : DB} {projectId organizationId now : Nat}
    {p : Project}
    (hp : verifyProject db projectId organizationId = Except.ok p)
    (hrun : db.runs.find?
      (fun r => r.projectId == projectId && r.status == RunStatus.running) = none)
    (hsrc : (db.sources.filter
      (fun s => s.projectId == projectId && s.status == SourceStatus.ready)).length = 0) :
    createProcessingRun db projectId organizationId now =
      Except.error (validationError "No ready sources configured for project"
        (some "NO_SOURCES_CONFIGURED")) := by
  unfold createProcessingRun
  rw [hp, hrun, if_pos (by simpa using hsrc)]

lemma createProcessingRun_ok_inv {db : DB} {projectId organizationId now : Nat}
    {v : CreatedRunView} {db' : DB}
    (h : createProcessingRun db projectId organizationId now = Except.ok (v, db')) :
    v = { id := db.nextRunId, status := RunStatus.pending, progress := 0, createdAt := now } ∧
    db' = { db with runs := db.runs ++ [newRunOf db projectId now]
                    nextRunId := db.nextRunId + 1 } := by
  unfold createProcessingRun at h
  cases hp : verifyProject db projectId organizationId with
  | error e => rw [hp] at h; simp at h
  | ok p =>
    rw [hp] at h
    cases hrun : db.runs.find?
        (fun r => r.projectId == projectId && r.status == RunStatus.running) with
    | some run => rw [hrun] at h; simp at h
    | none =>
      rw [hrun] at h
      by_cases hsrc : ((db.sources.filter
          (fun s => s.projectId == projectId && s.status == SourceStatus.ready)).length == 0)
          = true
      · rw [if_pos hsrc] at h; simp at h
      · rw [if_neg hsrc] at h
        simp only [Except.ok.injEq, Prod.mk.injEq] at h
        exact ⟨h.1.symm, h.2.symm⟩

lemma applyCreateRun_of_error {db : DB} {projectId organizationId now : Nat} {e : AppError}
    (h : createProcessingRun db projectId organizationId now = Except.error e) :
    applyCreateRun db projectId organizationId now = db := by
  unfold applyCreateRun
  rw [h]

lemma verifyRun_ok_elim {db : DB} {runId organizationId : Nat} {run : Run}
    (h : verifyRun db runId organizationId = Except.ok run) :
    db.runs.find? (fun r => r.id == runId) = some run ∧
    ∃ p, db.projects.find? (fun q => q.id == run.projectId) = some p ∧
      p.organizationId = organizationId := by
  unfold verifyRun at h
  cases hf : db.runs.find? (fun r => r.id == runId) with
  | none => rw [hf] at h; simp at h
  | some r =>
    simp only [hf] at h
    cases hp : db.projects.find? (fun q => q.id == r.projectId) with
    | none => simp only [hp] at h; simp at h
    | some p =>
      simp only [hp] at h
      by_cases horg : (p.organizationId == organizationId) = true
      · rw [if_pos horg] at h
        obtain rfl : r = run := by simpa using h
        exact ⟨rfl, p, hp, by simpa using horg⟩
      · rw [if_neg horg] at h; simp at h

lemma verifyRun_ok_intro {db : DB} {runId organizationId : Nat} {run : Run} {p : Project}
    (hf : db.runs.find? (fun r => r.id == runId) = some run)
    (hp : db.projects.find? (fun q => q.id == run.projectId) = some p)
    (horg : p.organizationId = organizationId) :
    verifyRun db runId organizationId = Except.ok run := by
  unfold verifyRun
  simp only [hf, hp]
  rw [if_pos (by simpa using horg)]

lemma verifyRun_missing {db : DB} {runId organizationId : Nat}
    (hf : db.runs.find? (fun r => r.id == runId) = none) :
    verifyRun db runId organizationId = Except.error (notFoundError "Processing run") := by
  unfold verifyRun
  rw [hf]

lemma verifyRun_wrongOrg {db : DB} {runId organizationId : Nat} {run : Run} {p : Project}
    (hf : db.runs.find? (fun r => r.id == runId) = some run)
    (hp : db.projects.find? (fun q => q.id == run.projectId) = some p)
    (horg : p.organizationId ≠ organizationId) :
    verifyRun db runId organizationId = Except.error (notFoundError "Processing run") := by
  unfold verifyRun
  simp only [hf, hp]
  rw [if_neg (by simpa using horg)]

lemma cancelRun_ok_of {db : DB} {runId organizationId now : Nat} {run : Run}
    (hv : verifyRun db runId organizationId = Except.ok run)
    (hs : run.status = RunStatus.pending ∨ run.status = RunStatus.running) :
    cancelRun db runId organizationId now =
      Except.ok (updateRun db runId (setCancelled now)) := by
  unfold cancelRun
  simp only [hv]
  rw [if_pos (by rcases hs with h | h <;> simp [h])]

lemma cancelRun_terminal {db : DB} {runId organizationId now : Nat} {run : Run}
    (hv : verifyRun db runId organizationId = Except.ok run)
    (h₁ : run.status ≠ RunStatus.pending) (h₂ : run.status ≠ RunStatus.running) :
    cancelRun db runId organizationId now =
      Except.error (validationError "Run cannot be cancelled"
        (some "RUN_NOT_CANCELLABLE")) := by
  unfold cancelRun
  simp only [hv]
  rw [if_neg (by simp [h₁, h₂])]

lemma cancelRun_err_of_verify {db : DB} {runId organizationId now : Nat} {e : AppError}
    (hv : verifyRun db runId organizationId = Except.error e) :
    cancelRun db runId organizationId now = Except.error e := by
  unfold cancelRun
  rw [hv]

lemma cancelRun_ok_inv {db : DB} {runId organizationId now : Nat} {db' : DB}
    (h : cancelRun db runId organizationId now = Except.ok db') :
    ∃ run, verifyRun db runId organizationId = Except.ok run ∧
      (run.status = RunStatus.pending ∨ run.status = RunStatus.running) ∧
      db' = updateRun db runId (setCancelled now) := by
  unfold cancelRun at h
  cases hv : verifyRun db runId organizationId with
  | error e => rw [hv] at h; simp at h
  | ok run =>
    simp only [hv] at h
    by_cases hc : (run.status == RunStatus.pending || run.status == RunStatus.running) = true
    · rw [if_pos hc] at h
      refine ⟨run, rfl, ?_, ?_⟩
      · simpa using hc
      · simpa using h.symm
    · rw [if_neg hc] at h; simp at h

lemma applyCancelRun_of_error {db : DB} {runId organizationId now : Nat} {e : AppError}
    (h : cancelRun db runId organizationId now = Except.error e) :
    applyCancelRun db runId organizationId now = db := by
  unfold applyCancelRun
  rw [h]

/-! ### Facts about the concrete pipeline write sequence -/

lemma simSteps_length : simulateProcessingSteps.length = 13 := rfl

lemma get?_simSteps_lt {k : Nat} {st : PipelineStep}
    (h : simulateProcessingSteps.get? k = some st) : k < 13 := by
  have := List.get?_eq_some.mp h
  simpa [simSteps_length] using this.1

lemma futureProgress_succ : ∀ k, k < 13 →
    futureProgress k =
      ((simulateProcessingSteps.get? k).bind progressOf).toList ++ futureProgress (k + 1) := by
  decide

lemma progress_at : ∀ k, k < 13 →
    (simulateProcessingSteps.get? k).bind progressOf =
      if 1 ≤ k ∧ k ≤ 10 then some (10 * k) else none := by
  decide

lemma steps_start_k : ∀ k, k < 13 →
    simulateProcessingSteps.get? k = some PipelineStep.start → k = 0 := by
  decide

lemma steps_complete_k : ∀ k, k < 13 →
    simulateProcessingSteps.get? k = some PipelineStep.complete → k = 11 := by
  decide

lemma steps_insert_k : ∀ k, k < 13 →
    simulateProcessingSteps.get? k = some PipelineStep.insertDataset → k = 12 := by
  decide

lemma steps_setProgress_facts {k p : Nat}
    (h : simulateProcessingSteps.get? k = some (PipelineStep.setProgress p)) :
    1 ≤ k ∧ k ≤ 10 ∧ p = 10 * k ∧ p ≤ 100 ∧
      futureProgress k = p :: futureProgress (k + 1) := by
  have hk : k < 13 := get?_simSteps_lt h
  have hb : (simulateProcessingSteps.get? k).bind progressOf = some p := by
    rw [h]; rfl
  have hp := progress_at k hk
  rw [hb] at hp
  by_cases hcond : 1 ≤ k ∧ k ≤ 10
  · rw [if_pos hcond] at hp
    obtain rfl : p = 10 * k := by simpa using hp
    refine ⟨hcond.1, hcond.2, rfl, by omega, ?_⟩
    have hfp := futureProgress_succ k hk
    rw [hb] at hfp
    simpa using hfp
  · rw [if_neg hcond] at hp
    simp at hp

lemma steps_nonProgress_futureProgress {k : Nat} {st : PipelineStep}
    (h : simulateProcessingSteps.get? k = some st) (hst : progressOf st = none) :
    futureProgress k = futureProgress (k + 1) := by
  have hk : k < 13 := get?_simSteps_lt h
  have hb : (simulateProcessingSteps.get? k).bind progressOf = none := by
    rw [h]; simpa using hst
  have hfp := futureProgress_succ k hk
  rw [hb] at hfp
  simpa using hfp

lemma futureProgress_zero : futureProgress 0 =
    [10, 20, 30, 40, 50, 60, 70, 80, 90, 100] := by
  decide

lemma futureProgress_thirteen : futureProgress 13 = [] := by
  decide

lemma datasetExistsFor_insert_self (db : DB) (runId now : Nat) :
    datasetExistsFor (insertDatasetForRun db runId now) runId := by
  unfold insertDatasetForRun datasetExistsFor
  split
  next hany =>
    obtain ⟨d, hd, hdr⟩ := List.any_eq_true.mp hany
    exact ⟨d, hd, by simpa using hdr⟩
  next hany =>
    exact ⟨_, List.mem_append_right _ (List.mem_singleton_self _), rfl⟩

lemma datasetExistsFor_insert_mono {db : DB} {rid : Nat} (runId now : Nat)
    (h : datasetExistsFor db rid) :
    datasetExistsFor (insertDatasetForRun db runId now) rid := by
  unfold insertDatasetForRun
  split
  · exact h
  · obtain ⟨d, hd, hdr⟩ := h
    exact ⟨d, List.mem_append_left _ hd, hdr⟩

lemma runInv_mono {db db' : DB} {pos pos' : Nat → Nat} {r : Run}
    (hnext : db.nextRunId ≤ db'.nextRunId)
    (hds : datasetExistsFor db r.id → datasetExistsFor db' r.id)
    (hpos : pos' r.id = pos r.id)
    (h : RunInv db pos r) : RunInv db' pos' r := by
  obtain ⟨h1, h2, h3, h4, h5, h6, h7, h8⟩ := h
  refine ⟨by omega, by rw [hpos]; exact h2, ?_, h4, by rw [hpos]; exact h5,
    by rw [hpos]; exact h6, by rw [hpos]; exact h7, ?_⟩
  · intro hp
    rw [hpos]
    exact h3 hp
  · rw [hpos]
    intro hk
    exact hds (h8 hk)

lemma mem_datasets_insert {db : DB} {runId now : Nat} {d : Dataset}
    (hd : d ∈ (insertDatasetForRun db runId now).datasets) :
    d ∈ db.datasets ∨
      (d.runId = runId ∧
        (db.datasets.any (fun x => x.runId == runId)) = false) := by
  unfold insertDatasetForRun at hd
  by_cases hany : (db.datasets.any (fun x => x.runId == runId)) = true
  · rw [if_pos hany] at hd
    exact Or.inl hd
  · rw [if_neg hany] at hd
    rcases List.mem_append.mp hd with h | h
    · exact Or.inl h
    · obtain rfl := List.mem_singleton.mp h
      exact Or.inr ⟨rfl, by simpa using hany⟩

/-! ### Preservation of the invariant -/

lemma inv_step_create {s : Sys} {pid org now : Nat} (hInv : Inv s) :
    Inv (sysStep s (Event.createRun pid org now)) := by
  obtain ⟨hnd, hruns, hds, hdnd⟩ := hInv
  cases hc : createProcessingRun s.db pid org now with
  | error e =>
    simp only [sysStep, hc]
    exact ⟨hnd, hruns, hds, hdnd⟩
  | ok x =>
    obtain ⟨v, db'⟩ := x
    obtain ⟨-, hdb⟩ := createProcessingRun_ok_inv hc
    subst hdb
    simp only [sysStep, hc]
    refine ⟨?_, ?_, ?_, hdnd⟩
    · -- ids stay Nodup: the appended run has the fresh id nextRunId
      have hnotin : s.db.nextRunId ∉ s.db.runs.map Run.id := by
        intro hmem
        obtain ⟨r, hrmem, hrid⟩ := List.mem_map.mp hmem
        have := (hruns r hrmem).1
        omega
      dsimp only
      rw [List.map_append]
      rw [List.nodup_append]
      refine ⟨hnd, by simp [newRunOf], ?_⟩
      simp only [newRunOf, List.map_cons, List.map_nil]
      simp [List.disjoint_singleton]
      intro r hrmem hrid
      exact hnotin (by exact List.mem_map.mpr ⟨r, hrmem, hrid⟩)
    · intro r hr
      dsimp only at hr ⊢
      rcases List.mem_append.mp hr with hmem | hmem
      · have hlt := (hruns r hmem).1
        refine runInv_mono ?_ ?_ ?_ (hruns r hmem)
        · dsimp only
          omega
        · exact fun h => h
        · have hne : r.id ≠ s.db.nextRunId := by omega
          simp [hne]
      · obtain rfl := List.mem_singleton.mp hmem
        unfold RunInv
        have hid : (newRunOf s.db pid now).id = s.db.nextRunId := rfl
        have hstatus : (newRunOf s.db pid now).status = RunStatus.pending := rfl
        have hprog : (newRunOf s.db pid now).progress = 0 := rfl
        dsimp only
        rw [hid, hstatus, hprog]
        simp only [if_pos rfl]
        simp
        decide
    · intro d hd
      obtain ⟨r, hrmem, hrid, hrst⟩ := hds d hd
      exact ⟨r, List.mem_append_left _ hrmem, hrid, hrst⟩

lemma inv_step_cancel {s : Sys} {runId org now : Nat} (hInv : Inv s) :
    Inv (sysStep s (Event.cancel runId org now)) := by
  obtain ⟨hnd, hruns, hds, hdnd⟩ := hInv
  cases hc : cancelRun s.db runId org now with
  | error e =>
    simp only [sysStep]
    rw [applyCancelRun_of_error hc]
    exact ⟨hnd, hruns, hds, hdnd⟩
  | ok db' =>
    obtain ⟨run₀, hv, hstat, hdb⟩ := cancelRun_ok_inv hc
    obtain ⟨hfind, p, hp, horg⟩ := verifyRun_ok_elim hv
    have hmem₀ := List.mem_of_find?_eq_some hfind
    have hid₀ : run₀.id = runId := id_eq_of_find? hfind
    have hnot12 : ¬ (12 ≤ s.pos runId) := by
      intro h12
      have h6 := (hruns run₀ hmem₀).2.2.2.2.2.1
      rw [hid₀] at h6
      have hcomp := (h6 h12).1
      rcases hstat with h | h <;> rw [h] at hcomp <;> cases hcomp
    have happ : applyCancelRun s.db runId org now = db' := by
      unfold applyCancelRun
      rw [hc]
    simp only [sysStep]
    rw [happ, hdb]
    refine ⟨?_, ?_, ?_, hdnd⟩
    · dsimp only
      rw [ids_updateRun s.db runId (setCancelled now) (fun r => rfl)]
      exact hnd
    · intro r' hr'
      dsimp only at hr' ⊢
      obtain ⟨r, hrmem, rfl⟩ := List.mem_map.mp hr'
      by_cases hidr : r.id = runId
      · have hr₀ : r = run₀ := by
          apply eq_of_mem_find? hnd hrmem
          rw [hidr]
          exact hfind
        rw [if_pos (by simpa using hidr)]
        obtain ⟨h1, h2, h3, h4, h5, h6, h7, h8⟩ := hruns r hrmem
        unfold RunInv
        rw [show (setCancelled now r).id = r.id from rfl,
            show (setCancelled now r).status = RunStatus.cancelled from rfl,
            show (setCancelled now r).progress = r.progress from rfl]
        refine ⟨h1, h2, fun hpend => absurd hpend (by decide), h4, h5, ?_,
          fun hcomp => absurd hcomp (by decide), ?_⟩
        · intro h12
          rw [hr₀, hid₀] at h12
          exact absurd h12 hnot12
        · intro h13
          rw [hr₀, hid₀] at h13
          exact absurd (by omega : 12 ≤ s.pos runId) hnot12
      · rw [if_neg (by simpa using hidr)]
        exact runInv_mono (le_refl _) (fun h => h) rfl (hruns r hrmem)
    · intro d hd
      dsimp only at hd ⊢
      obtain ⟨r, hrmem, hrid, hrst⟩ := hds d hd
      by_cases hidr : r.id = runId
      · exfalso
        have hr₀ : r = run₀ := by
          apply eq_of_mem_find? hnd hrmem
          rw [hidr]
          exact hfind
        rw [hr₀] at hrst
        rcases hstat with h | h <;> rw [h] at hrst <;> cases hrst
      · have hfix : (if r.id == runId then setCancelled now r else r) = r := by
          rw [if_neg (by simpa using hidr)]
        exact ⟨r, hfix ▸ List.mem_map_of_mem _ hrmem, hrid, hrst⟩

lemma insertDataset_runs (db : DB) (runId now : Nat) :
    (insertDatasetForRun db runId now).runs = db.runs := by
  unfold insertDatasetForRun
  split <;> rfl

lemma insertDataset_nextRunId (db : DB) (runId now : Nat) :
    (insertDatasetForRun db runId now).nextRunId = db.nextRunId := by
  unfold insertDatasetForRun
  split <;> rfl

lemma nodup_datasets_insert {db : DB} (runId now : Nat)
    (hdnd : (db.datasets.map Dataset.runId).Nodup) :
    ((insertDatasetForRun db runId now).datasets.map Dataset.runId).Nodup := by
  unfold insertDatasetForRun
  split
  · exact hdnd
  next hany =>
    rw [List.map_append, List.nodup_append]
    refine ⟨hdnd, by simp, ?_⟩
    intro a ha hamem
    simp only [List.map_cons, List.map_nil, List.mem_singleton] at hamem
    obtain ⟨d, hd, hdid⟩ := List.mem_map.mp ha
    rw [hamem] at hdid
    exact hany (List.any_eq_true.mpr ⟨d, hd, by simpa using hdid⟩)

lemma inv_step_pipe {s : Sys} {runId now : Nat} (hInv : Inv s)
    (hex : ∃ r ∈ s.db.runs, r.id = runId)
    (hk : s.pos runId < simulateProcessingSteps.length) :
    Inv (sysStep s (Event.pipeStep runId now)) := by
  obtain ⟨hnd, hruns, hds, hdnd⟩ := hInv
  obtain ⟨r₀, hmem₀, hid₀⟩ := hex
  cases hst : simulateProcessingSteps.get? (s.pos runId) with
  | none =>
    simp only [sysStep, hst]
    exact ⟨hnd, hruns, hds, hdnd⟩
  | some st =>
    simp only [sysStep, hst]
    cases st with
    | start =>
      have hkk : s.pos runId = 0 := steps_start_k _ (get?_simSteps_lt hst) hst
      have hfp : futureProgress (s.pos runId) = futureProgress (s.pos runId + 1) :=
        steps_nonProgress_futureProgress hst rfl
      simp only [applyPipelineStep]
      refine ⟨?_, ?_, ?_, ?_⟩
      · dsimp only
        rw [ids_updateRun s.db runId (setRunning now) (fun r => rfl)]
        exact hnd
      · intro r' hr'
        dsimp only at hr' ⊢
        obtain ⟨r, hrmem, rfl⟩ := List.mem_map.mp hr'
        obtain ⟨h1, h2, h3, h4, h5, h6, h7, h8⟩ := hruns r hrmem
        by_cases hidr : r.id = runId
        · rw [if_pos (by simpa using hidr)]
          unfold RunInv
          rw [show (setRunning now r).id = r.id from rfl,
              show (setRunning now r).status = RunStatus.running from rfl,
              show (setRunning now r).progress = r.progress from rfl]
          dsimp only
          rw [if_pos hidr]
          refine ⟨h1, by omega, fun hpend => absurd hpend (by decide), h4, ?_,
            fun h12 => absurd h12 (by omega), fun hcomp => absurd hcomp (by decide),
            fun h13 => absurd h13 (by omega)⟩
          rw [← hfp, ← hidr]
          exact h5
        · rw [if_neg (by simpa using hidr)]
          refine runInv_mono (le_refl _) (fun h => h) ?_ (hruns r hrmem)
          dsimp only
          rw [if_neg hidr]
      · intro d hd
        dsimp only at hd ⊢
        obtain ⟨r, hrmem, hrid, hrst⟩ := hds d hd
        have hidr : r.id ≠ runId := by
          intro hcontra
          have h7 := (hruns r hrmem).2.2.2.2.2.2.1
          have h12 := h7 hrst
          rw [hcontra] at h12
          omega
        have hfix : (if r.id == runId then setRunning now r else r) = r := by
          rw [if_neg (by simpa using hidr)]
        exact ⟨r, hfix ▸ List.mem_map_of_mem _ hrmem, hrid, hrst⟩
      · exact hdnd
    | setProgress p =>
      obtain ⟨hk1, hk10, hp10, hple, hfp⟩ := steps_setProgress_facts hst
      simp only [applyPipelineStep]
      refine ⟨?_, ?_, ?_, ?_⟩
      · dsimp only
        rw [ids_updateRun s.db runId (setProgressTo p) (fun r => rfl)]
        exact hnd
      · intro r' hr'
        dsimp only at hr' ⊢
        obtain ⟨r, hrmem, rfl⟩ := List.mem_map.mp hr'
        obtain ⟨h1, h2, h3, h4, h5, h6, h7, h8⟩ := hruns r hrmem
        by_cases hidr : r.id = runId
        · rw [if_pos (by simpa using hidr)]
          unfold RunInv
          rw [show (setProgressTo p r).id = r.id from rfl,
              show (setProgressTo p r).status = r.status from rfl,
              show (setProgressTo p r).progress = p from rfl]
          dsimp only
          rw [if_pos hidr]
          refine ⟨h1, by omega, ?_, hple, ?_, fun h12 => absurd h12 (by omega), ?_,
            fun h13 => absurd h13 (by omega)⟩
          · intro hpend
            exfalso
            have h0 := (h3 hpend).2
            rw [hidr] at h0
            omega
          · rw [hidr, hfp] at h5
            exact (sortedLE_cons_cons.mp h5).2
          · intro hcomp
            exfalso
            have h12 := h7 hcomp
            rw [hidr] at h12
            omega
        · rw [if_neg (by simpa using hidr)]
          refine runInv_mono (le_refl _) (fun h => h) ?_ (hruns r hrmem)
          dsimp only
          rw [if_neg hidr]
      · intro d hd
        dsimp only at hd ⊢
        obtain ⟨r, hrmem, hrid, hrst⟩ := hds d hd
        have hidr : r.id ≠ runId := by
          intro hcontra
          have h7 := (hruns r hrmem).2.2.2.2.2.2.1
          have h12 := h7 hrst
          rw [hcontra] at h12
          omega
        have hfix : (if r.id == runId then setProgressTo p r else r) = r := by
          rw [if_neg (by simpa using hidr)]
        exact ⟨r, hfix ▸ List.mem_map_of_mem _ hrmem, hrid, hrst⟩
      · exact hdnd
    | complete =>
      have hkk : s.pos runId = 11 := steps_complete_k _ (get?_simSteps_lt hst) hst
      simp only [applyPipelineStep]
      refine ⟨?_, ?_, ?_, ?_⟩
      · dsimp only
        rw [ids_updateRun s.db runId (setCompleted now) (fun r => rfl)]
        exact hnd
      · intro r' hr'
        dsimp only at hr' ⊢
        obtain ⟨r, hrmem, rfl⟩ := List.mem_map.mp hr'
        obtain ⟨h1, h2, h3, h4, h5, h6, h7, h8⟩ := hruns r hrmem
        by_cases hidr : r.id = runId
        · rw [if_pos (by simpa using hidr)]
          unfold RunInv
          rw [show (setCompleted now r).id = r.id from rfl,
              show (setCompleted now r).status = RunStatus.completed from rfl,
              show (setCompleted now r).progress = 100 from rfl]
          dsimp only
          rw [if_pos hidr]
          refine ⟨h1, by omega, fun hpend => absurd hpend (by decide), by omega, ?_,
            fun _ => ⟨rfl, rfl⟩, fun _ => by omega, fun h13 => absurd h13 (by omega)⟩
          rw [hkk]
          decide
        · rw [if_neg (by simpa using hidr)]
          refine runInv_mono (le_refl _) (fun h => h) ?_ (hruns r hrmem)
          dsimp only
          rw [if_neg hidr]
      · intro d hd
        dsimp only at hd ⊢
        obtain ⟨r, hrmem, hrid, hrst⟩ := hds d hd
        by_cases hidr : r.id = runId
        · have hfix : (if r.id == runId then setCompleted now r else r) =
              setCompleted now r := by
            rw [if_pos (by simpa using hidr)]
          refine ⟨setCompleted now r, hfix ▸ List.mem_map_of_mem _ hrmem, hrid, rfl⟩
        · have hfix : (if r.id == runId then setCompleted now r else r) = r := by
            rw [if_neg (by simpa using hidr)]
          exact ⟨r, hfix ▸ List.mem_map_of_mem _ hrmem, hrid, hrst⟩
      · exact hdnd
    | insertDataset =>
      have hkk : s.pos runId = 12 := steps_insert_k _ (get?_simSteps_lt hst) hst
      simp only [applyPipelineStep]
      refine ⟨?_, ?_, ?_, ?_⟩
      · dsimp only
        rw [insertDataset_runs]
        exact hnd
      · intro r' hr'
        dsimp only at hr' ⊢
        rw [insertDataset_runs] at hr'
        obtain ⟨h1, h2, h3, h4, h5, h6, h7, h8⟩ := hruns r' hr'
        by_cases hidr : r'.id = runId
        · have h612 : r'.status = RunStatus.completed ∧ r'.progress = 100 := by
            apply h6
            rw [hidr, hkk]
          unfold RunInv
          dsimp only
          rw [if_pos hidr]
          refine ⟨?_, by omega, ?_, h4, ?_, fun _ => h612, fun _ => by omega, ?_⟩
          · rw [insertDataset_nextRunId]
            exact h1
          · intro hpend
            exfalso
            rw [hpend] at h612
            exact absurd h612.1 (by decide)
          · rw [h612.2, hkk]
            decide
          · intro _
            rw [hidr]
            exact datasetExistsFor_insert_self s.db runId now
        · refine runInv_mono ?_ ?_ ?_ (hruns r' hr')
          · dsimp only
            rw [insertDataset_nextRunId]
          · intro h
            exact datasetExistsFor_insert_mono runId now h
          · dsimp only
            rw [if_neg hidr]
      · intro d hd
        dsimp only at hd ⊢
        rw [insertDataset_runs]
        rcases mem_datasets_insert hd with hold | ⟨hdr, -⟩
        · exact hds d hold
        · have h6 := (hruns r₀ hmem₀).2.2.2.2.2.1
          rw [hid₀, hkk] at h6
          exact ⟨r₀, hmem₀, by rw [hid₀, hdr], (h6 (by omega)).1⟩
      · dsimp only
        exact nodup_datasets_insert runId now hdnd

/-- One valid event preserves the invariant. -/
lemma inv_step {s : Sys} {e : Event} (hInv : Inv s) (hv : validStep s e) :
    Inv (sysStep s e) := by
  cases e with
  | createRun pid org now => exact inv_step_create hInv
  | pipeStep runId now => exact inv_step_pipe hInv hv.1 hv.2
  | cancel runId org now => exact inv_step_cancel hInv

/-- The invariant holds after any valid trace. -/
lemma inv_execTrace {s : Sys} {tr : List Event} (hInv : Inv s) (hv : ValidTrace s tr) :
    Inv (execTrace s tr) := by
  induction tr generalizing s with
  | nil => exact hInv
  | cons e tr ih => exact ih (inv_step hInv hv.1) hv.2

lemma validTrace_take {s : Sys} {tr : List Event} (hv : ValidTrace s tr) (i : Nat) :
    ValidTrace s (tr.take i) := by
  induction tr generalizing s i with
  | nil =>
    cases i <;> trivial
  | cons e tr ih =>
    cases i with
    | zero => trivial
    | succ n => exact ⟨hv.1, ih hv.2 n⟩

lemma validStep_at {s : Sys} {tr : List Event} (hv : ValidTrace s tr) :
    ∀ i (hi : i < tr.length), validStep (execTrace s (tr.take i)) (tr.get ⟨i, hi⟩) := by
  induction tr generalizing s with
  | nil =>
    intro i hi
    exact absurd hi (by simp)
  | cons e tr ih =>
    intro i hi
    cases i with
    | zero => exact hv.1
    | succ n => exact ih hv.2 n (by simpa using hi)

lemma find?_append_some {α : Type} {l₁ : List α} (l₂ : List α) {p : α → Bool} {a : α}
    (h : l₁.find? p = some a) : (l₁ ++ l₂).find? p = some a := by
  induction l₁ with
  | nil => simp [List.find?] at h
  | cons b l ih =>
    rw [List.cons_append]
    rw [List.find?_cons] at h ⊢
    cases hb : p b with
    | true => simp only [hb] at h ⊢; exact h
    | false => simp only [hb] at h ⊢; exact ih h

lemma runProgress_updateRun_mono (db : DB) (tid : Nat) (f : Run → Run)
    (hf_id : ∀ r, (f r).id = r.id)
    (hmono : ∀ r ∈ db.runs, r.id = tid → r.progress ≤ (f r).progress) (id : Nat) :
    runProgress db id ≤ runProgress (updateRun db tid f) id := by
  unfold runProgress
  rw [find?_updateRun db tid f hf_id id]
  cases h : db.runs.find? (fun r => r.id == id) with
  | none => exact le_refl 0
  | some r =>
    have hrmem := List.mem_of_find?_eq_some h
    dsimp only [Option.map_some']
    split
    next hcond => exact hmono r hrmem (by simpa using hcond)
    next => exact le_refl _

/-- No event ever decreases any run's persisted progress. -/
lemma runProgress_step_mono {s : Sys} {e : Event} (hInv : Inv s) (hv : validStep s e)
    (id : Nat) : runProgress s.db id ≤ runProgress (sysStep s e).db id := by
  obtain ⟨hnd, hruns, hds, hdnd⟩ := hInv
  cases e with
  | createRun pid org now =>
    cases hc : createProcessingRun s.db pid org now with
    | error e =>
      simp only [sysStep, hc]
      exact le_refl _
    | ok x =>
      obtain ⟨v, db'⟩ := x
      obtain ⟨-, hdb⟩ := createProcessingRun_ok_inv hc
      subst hdb
      simp only [sysStep, hc]
      unfold runProgress
      dsimp only
      cases h : s.db.runs.find? (fun r => r.id == id) with
      | none =>
        simp only [h]
        exact Nat.zero_le _
      | some r =>
        have h' := find?_append_some [newRunOf s.db pid now] h
        simp only [h, h']
        exact le_refl _
  | pipeStep runId now =>
    cases hst : simulateProcessingSteps.get? (s.pos runId) with
    | none =>
      simp only [sysStep, hst]
      exact le_refl _
    | some st =>
      simp only [sysStep, hst]
      cases st with
      | start =>
        simp only [applyPipelineStep]
        exact runProgress_updateRun_mono s.db runId (setRunning now)
          (fun r => rfl) (fun r _ _ => le_refl _) id
      | setProgress p =>
        obtain ⟨hk1, hk10, hp10, hple, hfp⟩ := steps_setProgress_facts hst
        simp only [applyPipelineStep]
        apply runProgress_updateRun_mono s.db runId (setProgressTo p) (fun r => rfl)
        intro r hrmem hrid
        obtain ⟨h1, h2, h3, h4, h5, h6, h7, h8⟩ := hruns r hrmem
        rw [hrid, hfp] at h5
        exact (sortedLE_cons_cons.mp h5).1
      | complete =>
        simp only [applyPipelineStep]
        apply runProgress_updateRun_mono s.db runId (setCompleted now) (fun r => rfl)
        intro r hrmem hrid
        exact (hruns r hrmem).2.2.2.1
      | insertDataset =>
        simp only [applyPipelineStep]
        unfold runProgress
        rw [insertDataset_runs]
  | cancel runId org now =>
    cases hc : cancelRun s.db runId org now with
    | error e =>
      simp only [sysStep]
      rw [applyCancelRun_of_error hc]
    | ok db' =>
      obtain ⟨run₀, hv', hstat, hdb⟩ := cancelRun_ok_inv hc
      have happ : applyCancelRun s.db runId org now = db' := by
        unfold applyCancelRun
        rw [hc]
      simp only [sysStep]
      rw [happ, hdb]
      exact runProgress_updateRun_mono s.db runId (setCancelled now)
        (fun r => rfl) (fun r _ _ => le_refl _) id

lemma runProgress_trace_mono {s : Sys} {tr : List Event} (hInv : Inv s)
    (hv : ValidTrace s tr) (i : Nat) (id : Nat) :
    runProgress (execTrace s (tr.take i)).db id ≤
      runProgress (execTrace s (tr.take (i + 1))).db id := by
  by_cases hi : i < tr.length
  · have htk : tr.take (i + 1) = tr.take i ++ [tr.get ⟨i, hi⟩] := by
      rw [List.take_succ]
      congr 1
      simp [List.getElem?_eq_getElem hi, List.get_eq_getElem]
    rw [htk]
    simp only [execTrace, List.foldl_append, List.foldl_cons, List.foldl_nil]
    exact runProgress_step_mono (inv_execTrace hInv (validTrace_take hv i))
      (validStep_at hv i hi) id
  · have htk : tr.take (i + 1) = tr.take i := by
      rw [List.take_of_length_le (by omega), List.take_of_length_le (by omega)]
    rw [htk]

lemma runProgress_trace_mono_le {s : Sys} {tr : List Event} (hInv : Inv s)
    (hv : ValidTrace s tr) {i j : Nat} (hij : i ≤ j) (id : Nat) :
    runProgress (execTrace s (tr.take i)).db id ≤
      runProgress (execTrace s (tr.take j)).db id := by
  induction j with
  | zero =>
    obtain rfl : i = 0 := by omega
    exact le_refl _
  | succ n ih =>
    rcases Nat.lt_or_ge i (n + 1) with h | h
    · exact le_trans (ih (by omega)) (runProgress_trace_mono hInv hv n id)
    · obtain rfl : i = n + 1 := by omega
      exact le_refl _

lemma getRunDataset_notFound_iff {db : DB} {runId organizationId : Nat} {run : Run}
    (hv : verifyRun db runId organizationId = Except.ok run) :
    (getRunDataset db runId organizationId = Except.error (notFoundError "Dataset") ↔
      ¬ datasetExistsFor db runId) := by
  unfold getRunDataset
  simp only [hv]
  cases hf : db.datasets.find? (fun d => d.runId == runId) with
  | none =>
    simp only [hf]
    constructor
    · intro _
      rintro ⟨d, hd, hdr⟩
      have := List.find?_eq_none.mp hf d hd
      simp [hdr] at this
    · intro _
      trivial
  | some d =>
    simp only [hf]
    constructor
    · intro h
      simp at h
    · intro hn
      exfalso
      apply hn
      exact ⟨d, List.mem_of_find?_eq_some hf, by simpa using List.find?_some hf⟩

lemma key_eq_of_find? {α : Type} (key : α → Nat) {l : List α} {id : Nat} {x : α}
    (h : l.find? (fun y => key y == id) = some x) : key x = id := by
  have := List.find?_some h
  simpa using this

lemma insertDatasetForRun_noop {db : DB} {runId : Nat} (now : Nat)
    (hany : db.datasets.any (fun d => d.runId == runId) = true) :
    insertDatasetForRun db runId now = db := by
  unfold insertDatasetForRun
  rw [if_pos hany]

/-! ### Claim theorems -/

/-- C1 (counterexample): a project with a Run in `pending` state does not make
`createProcessingRun` fail — the guard only queries for status `running` — so a
second Run row is inserted while the first is still pending. -/
theorem createRun_pending_not_blocked :
    exDBpending.runs.find?
      (fun r => r.projectId == 1 && r.status == RunStatus.pending) = some exPendingRun ∧
    (match createProcessingRun exDBpending 1 1 5 with
     | Except.ok x => x.2.runs.length
     | Except.error _ => 0) = 2 := by
  decide

/-- C1 (amended): only a Run in `running` state blocks creation, and the
failure is the 422 `ValidationError` "A processing run is already active"
(code `RUN_ALREADY_RUNNING`), not a 409 Conflict; on that failure no Run row
is inserted and the database is unchanged. -/
theorem createRun_blocked_only_by_running {db : DB} {projectId organizationId now : Nat}
    {p : Project} {run : Run}
    (hp : verifyProject db projectId organizationId = Except.ok p)
    (hrun : db.runs.find?
      (fun r => r.projectId == projectId && r.status == RunStatus.running) = some run) :
    createProcessingRun db projectId organizationId now =
      Except.error (validationError "A processing run is already active"
        (some "RUN_ALREADY_RUNNING")) ∧
    applyCreateRun db projectId organizationId now = db := by
  have h := @createProcessingRun_activeRun db projectId organizationId now p run hp hrun
  exact ⟨h, applyCreateRun_of_error h⟩

/-- C1 (witness): the amended claim at a concrete database with a running run. -/
theorem createRun_blocked_only_by_running_witness :
    createProcessingRun exDBrunning 1 1 5 =
      Except.error (validationError "A processing run is already active"
        (some "RUN_ALREADY_RUNNING")) ∧
    applyCreateRun exDBrunning 1 1 5 = exDBrunning :=
  @createRun_blocked_only_by_running exDBrunning 1 1 5 exProject
    { exPendingRun with status := RunStatus.running } (by decide) (by decide)

/-- C2: a run is created, its pipeline starts, the user cancels it (status is
recorded `cancelled`), and then the still-running pipeline task's unconditional
updates overwrite the terminal status with `completed` and attach a dataset —
the valid trace below exhibits the overwrite the claim forbids. -/
theorem cancelRun_overwritten_by_pipeline :
    ValidTrace exSys c2TraceFull ∧
    runStatusOf (execTrace exSys c2TracePre).db 1 = some RunStatus.cancelled ∧
    runStatusOf (execTrace exSys c2TraceFull).db 1 = some RunStatus.completed ∧
    datasetExistsFor (execTrace exSys c2TraceFull).db 1 := by
  decide

/-- C3 (counterexample): after the pipeline's completion status update but
before its dataset insert (two separate database writes), the run's status is
`completed` while no Dataset row exists, and `getRunDataset` answers
`NotFound` — refuting the unconditional "Dataset exists iff status is
completed". -/
theorem completed_without_dataset_transient :
    ValidTrace exSys c3Trace ∧
    runStatusOf (execTrace exSys c3Trace).db 1 = some RunStatus.completed ∧
    ¬ datasetExistsFor (execTrace exSys c3Trace).db 1 ∧
    getRunDataset (execTrace exSys c3Trace).db 1 1 =
      Except.error (notFoundError "Dataset") := by
  decide

/-- C3 (amended): in every reachable state a Dataset's owning run has status
`completed` (so a run observed `failed` or `cancelled` never has one); once a
run's pipeline has performed all its writes the biconditional holds; and
`getRunDataset` returns `NotFound` ("Dataset") exactly when the run has no
Dataset row. -/
theorem dataset_iff_completed {s : Sys} {tr : List Event} (hInv : Inv s)
    (hv : ValidTrace s tr) :
    (∀ d ∈ (execTrace s tr).db.datasets, ∃ r ∈ (execTrace s tr).db.runs,
        r.id = d.runId ∧ r.status = RunStatus.completed) ∧
    (∀ r ∈ (execTrace s tr).db.runs,
        (execTrace s tr).pos r.id = simulateProcessingSteps.length →
        (r.status = RunStatus.completed ↔ datasetExistsFor (execTrace s tr).db r.id)) ∧
    (∀ runId organizationId run,
        verifyRun (execTrace s tr).db runId organizationId = Except.ok run →
        (getRunDataset (execTrace s tr).db runId organizationId =
            Except.error (notFoundError "Dataset") ↔
          ¬ datasetExistsFor (execTrace s tr).db runId)) := by
  obtain ⟨hnd, hruns, hds, hdnd⟩ := inv_execTrace hInv hv
  refine ⟨hds, ?_, ?_⟩
  · intro r hr h13
    obtain ⟨h1, h2, h3, h4, h5, h6, h7, h8⟩ := hruns r hr
    have h13' : (execTrace s tr).pos r.id = 13 := h13
    constructor
    · intro _
      exact h8 h13'
    · intro _
      exact (h6 (by omega)).1
  · intro runId organizationId run hv'
    exact getRunDataset_notFound_iff hv'

/-- C3 (witness): the amended claim's getRunDataset clause at a concrete valid
trace, run id and caller. -/
theorem dataset_iff_completed_witness :
    getRunDataset (execTrace exSys exTrace).db 1 1 =
        Except.error (notFoundError "Dataset") ↔
      ¬ datasetExistsFor (execTrace exSys exTrace).db 1 :=
  (dataset_iff_completed (by decide) (by decide)).2.2 1 1
    { id := 1, projectId := 1, status := RunStatus.cancelled, progress := 20
      startedAt := some 1, completedAt := some 3, error := none, errorDetails := none
      config := RunConfigSnapshot.emptyObj, stats := none, createdAt := 0, updatedAt := 3 }
    (by decide)

/-- C4: cancelling a `pending` or `running` run succeeds, setting exactly
status `cancelled`, the completion timestamp and `updatedAt` on that row;
cancelling a run in any terminal state fails with the 422 `ValidationError`
"Run cannot be cancelled" and leaves the database — hence every field of the
run — unchanged. -/
theorem cancelRun_spec {db : DB} {runId organizationId now : Nat} {run : Run}
    (hv : verifyRun db runId organizationId = Except.ok run) :
    ((run.status = RunStatus.pending ∨ run.status = RunStatus.running) →
        cancelRun db runId organizationId now =
          Except.ok (updateRun db runId (setCancelled now)) ∧
        (updateRun db runId (setCancelled now)).runs.find? (fun r => r.id == runId) =
          some { run with status := RunStatus.cancelled, completedAt := some now
                          updatedAt := now }) ∧
    ((run.status = RunStatus.completed ∨ run.status = RunStatus.failed ∨
        run.status = RunStatus.cancelled) →
        cancelRun db runId organizationId now =
          Except.error (validationError "Run cannot be cancelled"
            (some "RUN_NOT_CANCELLABLE")) ∧
        applyCancelRun db runId organizationId now = db) := by
  obtain ⟨hfind, p, hp, horg⟩ := verifyRun_ok_elim hv
  have hid : run.id = runId := id_eq_of_find? hfind
  constructor
  · intro hs
    refine ⟨cancelRun_ok_of hv hs, ?_⟩
    rw [find?_updateRun db runId (setCancelled now) (fun r => rfl) runId]
    rw [hfind]
    dsimp only [Option.map_some']
    rw [if_pos (by simpa using hid)]
    rfl
  · intro hs
    have h1 : run.status ≠ RunStatus.pending := by
      rcases hs with h | h | h <;> rw [h] <;> decide
    have h2 : run.status ≠ RunStatus.running := by
      rcases hs with h | h | h <;> rw [h] <;> decide
    have herr := @cancelRun_terminal db runId organizationId now run hv h1 h2
    exact ⟨herr, applyCancelRun_of_error herr⟩

/-- C4 (witness): cancelling the concrete pending run. -/
theorem cancelRun_spec_witness :
    cancelRun exDBpending 1 1 7 = Except.ok (updateRun exDBpending 1 (setCancelled 7)) ∧
    (updateRun exDBpending 1 (setCancelled 7)).runs.find? (fun r => r.id == 1) =
      some { exPendingRun with status := RunStatus.cancelled, completedAt := some 7
                               updatedAt := 7 } :=
  (@cancelRun_spec exDBpending 1 1 7 exPendingRun (by decide)).1 (Or.inl (by decide))

/-- C5 (counterexample): with no persisted Processing Configuration the created
run's config snapshot is the empty JSON object, not the hard-coded default
that `getProcessingConfig` would report. -/
theorem createRun_config_snapshot_not_default :
    exDB.processingConfigs = [] ∧
    (match createProcessingRun exDB 1 1 0 with
     | Except.ok x => x.2.runs.map Run.config
     | Except.error _ => []) = [RunConfigSnapshot.emptyObj] ∧
    RunConfigSnapshot.emptyObj ≠ RunConfigSnapshot.ofConfig defaultProcessingConfig := by
  decide

/-- C5 (amended): when all preconditions pass, `createProcessingRun` inserts
one new Run with status `pending`, progress 0, and as config snapshot the
persisted configuration, or the empty object `{}` when none is persisted
(the hard-coded default lives only in `getProcessingConfig`'s read path);
it returns the run's id, status, progress and creation time. -/
theorem createRun_success_spec {db : DB} {projectId organizationId now : Nat} {p : Project}
    (hp : verifyProject db projectId organizationId = Except.ok p)
    (hrun : db.runs.find?
      (fun r => r.projectId == projectId && r.status == RunStatus.running) = none)
    (hsrc : (db.sources.filter
      (fun s => s.projectId == projectId && s.status == SourceStatus.ready)).length ≠ 0) :
    createProcessingRun db projectId organizationId now =
      Except.ok ({ id := db.nextRunId, status := RunStatus.pending, progress := 0
                   createdAt := now },
        { db with runs := db.runs ++ [newRunOf db projectId now]
                  nextRunId := db.nextRunId + 1 }) ∧
    (newRunOf db projectId now).status = RunStatus.pending ∧
    (newRunOf db projectId now).progress = 0 ∧
    (newRunOf db projectId now).config =
      (match db.processingConfigs.find? (fun c => c.projectId == projectId) with
       | some c => RunConfigSnapshot.ofConfig c.config
       | none => RunConfigSnapshot.emptyObj) :=
  ⟨createProcessingRun_success hp hrun hsrc, rfl, rfl, rfl⟩

/-- C5 (witness): successful creation on the concrete baseline database. -/
theorem createRun_success_spec_witness :
    createProcessingRun exDB 1 1 0 =
      Except.ok ({ id := exDB.nextRunId, status := RunStatus.pending, progress := 0
                   createdAt := 0 },
        { exDB with runs := exDB.runs ++ [newRunOf exDB 1 0]
                    nextRunId := exDB.nextRunId + 1 }) :=
  (@createRun_success_spec exDB 1 1 0 exProject (by decide) (by decide) (by decide)).1

/-- C6: with the project verified and no running run, a project with zero
`ready` sources makes `createProcessingRun` fail with the 422
`ValidationError` "No ready sources configured for project"
(code `NO_SOURCES_CONFIGURED`), inserting no Run row. -/
theorem createRun_no_ready_sources_spec {db : DB} {projectId organizationId now : Nat}
    {p : Project}
    (hp : verifyProject db projectId organizationId = Except.ok p)
    (hrun : db.runs.find?
      (fun r => r.projectId == projectId && r.status == RunStatus.running) = none)
    (hsrc : (db.sources.filter
      (fun s => s.projectId == projectId && s.status == SourceStatus.ready)).length = 0) :
    createProcessingRun db projectId organizationId now =
      Except.error (validationError "No ready sources configured for project"
        (some "NO_SOURCES_CONFIGURED")) ∧
    applyCreateRun db projectId organizationId now = db := by
  have h := @createProcessingRun_noReadySources db projectId organizationId now p hp hrun hsrc
  exact ⟨h, applyCreateRun_of_error h⟩

/-- C6 (witness): the concrete database whose only source is not ready. -/
theorem createRun_no_ready_sources_spec_witness :
    createProcessingRun exDBnoReady 1 1 4 =
      Except.error (validationError "No ready sources configured for project"
        (some "NO_SOURCES_CONFIGURED")) ∧
    applyCreateRun exDBnoReady 1 1 4 = exDBnoReady :=
  @createRun_no_ready_sources_spec exDBnoReady 1 1 4 exProject
    (by decide) (by decide) (by decide)

/-- C7: along every valid trace, at every intermediate state a `pending` run
has progress 0 and a `completed` run has progress exactly 100, and no run's
persisted progress ever decreases from one state to a later one (in
particular it is non-decreasing while the run is `running`). -/
theorem run_progress_lifecycle {s : Sys} {tr : List Event}
    (hInv : Inv s) (hv : ValidTrace s tr) :
    (∀ i, ∀ r ∈ (execTrace s (tr.take i)).db.runs,
        (r.status = RunStatus.pending → r.progress = 0) ∧
        (r.status = RunStatus.completed → r.progress = 100)) ∧
    (∀ i j, i ≤ j → ∀ id,
        runProgress (execTrace s (tr.take i)).db id ≤
          runProgress (execTrace s (tr.take j)).db id) := by
  constructor
  · intro i r hr
    obtain ⟨-, hruns, -, -⟩ := inv_execTrace hInv (validTrace_take hv i)
    obtain ⟨h1, h2, h3, h4, h5, h6, h7, h8⟩ := hruns r hr
    exact ⟨fun hp => (h3 hp).1, fun hc => (h6 (h7 hc)).2⟩
  · intro i j hij id
    exact runProgress_trace_mono_le hInv hv hij id

/-- C7 (witness): progress monotonicity between two concrete states of a
concrete valid trace. -/
theorem run_progress_lifecycle_witness :
    runProgress (execTrace exSys (exTrace.take 2)).db 1 ≤
      runProgress (execTrace exSys (exTrace.take 3)).db 1 :=
  (run_progress_lifecycle (by decide) (by decide)).2 2 3 (by decide) 1

/-- C8 (counterexample): the materializer hard-codes the dataset format
`"conversational"`; a completed run whose config snapshot asks for `qa`
output still gets a `"conversational"` dataset, so the format is not
copied/derived from the snapshot. -/
theorem materializer_ignores_snapshot_format :
    exRunQa.config = RunConfigSnapshot.ofConfig exConfigQa ∧
    exConfigQa.outputFormat = OutputFormat.qa ∧
    (∃ d ∈ (insertDatasetForRun exDBqa 1 9).datasets,
      d.runId = 1 ∧ d.format = "conversational") ∧
    (∀ d ∈ (insertDatasetForRun exDBqa 1 9).datasets, d.format ≠ "qa") := by
  decide

/-- C8 (amended): for a run with no dataset yet, materialization inserts
exactly one Dataset row with the fixed format `"conversational"` (regardless
of the config snapshot), record count 100 and the pipeline's fixed statistics;
invoking it again for the same run is a no-op — the unique constraint on the
dataset's `run_id` prevents a second row. -/
theorem materializer_spec {db : DB} {runId : Nat} (now now₂ : Nat)
    (hany : db.datasets.any (fun d => d.runId == runId) = false) :
    (insertDatasetForRun db runId now).datasets =
      db.datasets ++
        [{ id := db.nextDatasetId, runId := runId
           name := "Dataset from Run " ++ toString runId, format := "conversational"
           recordCount := some 100, stats := some materializedDatasetStats
           createdAt := now }] ∧
    insertDatasetForRun (insertDatasetForRun db runId now) runId now₂ =
      insertDatasetForRun db runId now := by
  have h1 : (insertDatasetForRun db runId now).datasets =
      db.datasets ++
        [{ id := db.nextDatasetId, runId := runId
           name := "Dataset from Run " ++ toString runId, format := "conversational"
           recordCount := some 100, stats := some materializedDatasetStats
           createdAt := now }] := by
    unfold insertDatasetForRun
    rw [if_neg (by simp [hany])]
  refine ⟨h1, ?_⟩
  apply insertDatasetForRun_noop
  rw [h1, List.any_append]
  simp

/-- C8 (witness): materializing twice for run 1 on the baseline database. -/
theorem materializer_spec_witness :
    (insertDatasetForRun exDB 1 5).datasets =
      exDB.datasets ++
        [{ id := exDB.nextDatasetId, runId := 1
           name := "Dataset from Run " ++ toString 1, format := "conversational"
           recordCount := some 100, stats := some materializedDatasetStats
           createdAt := 5 }] ∧
    insertDatasetForRun (insertDatasetForRun exDB 1 5) 1 6 =
      insertDatasetForRun exDB 1 5 :=
  @materializer_spec exDB 1 5 6 (by decide)

/-- C9: for each of `getRun`, `getRunStatus`, `cancelRun` and `getRunDataset`,
a caller whose organization does not own the run's project receives exactly
the same `NotFoundError "Processing run"` value as a caller naming a run id
that does not exist at all — the two cases are indistinguishable. -/
theorem run_tenant_isolation {db : DB} {runId organizationId now : Nat} :
    (db.runs.find? (fun r => r.id == runId) = none →
        getRun db runId organizationId = Except.error (notFoundError "Processing run") ∧
        getRunStatus db runId organizationId =
          Except.error (notFoundError "Processing run") ∧
        cancelRun db runId organizationId now =
          Except.error (notFoundError "Processing run") ∧
        getRunDataset db runId organizationId =
          Except.error (notFoundError "Processing run")) ∧
    (∀ run p, db.runs.find? (fun r => r.id == runId) = some run →
        db.projects.find? (fun q => q.id == run.projectId) = some p →
        p.organizationId ≠ organizationId →
        getRun db runId organizationId = Except.error (notFoundError "Processing run") ∧
        getRunStatus db runId organizationId =
          Except.error (notFoundError "Processing run") ∧
        cancelRun db runId organizationId now =
          Except.error (notFoundError "Processing run") ∧
        getRunDataset db runId organizationId =
          Except.error (notFoundError "Processing run")) := by
  constructor
  · intro hf
    refine ⟨?_, ?_, ?_, ?_⟩
    · unfold getRun
      rw [verifyRun_missing hf]
    · unfold getRunStatus
      rw [verifyRun_missing hf]
    · unfold cancelRun
      rw [verifyRun_missing hf]
    · unfold getRunDataset
      rw [verifyRun_missing hf]
  · intro run p hfind hp horg
    refine ⟨?_, ?_, ?_, ?_⟩
    · unfold getRun
      rw [verifyRun_wrongOrg hfind hp horg]
    · unfold getRunStatus
      rw [verifyRun_wrongOrg hfind hp horg]
    · unfold cancelRun
      rw [verifyRun_wrongOrg hfind hp horg]
    · unfold getRunDataset
      rw [verifyRun_wrongOrg hfind hp horg]

/-- C9 (witness): nonexistent run id 99 and wrong-organization caller 2 both
receive the identical error on the concrete database. -/
theorem run_tenant_isolation_witness :
    getRun exDBpending 99 1 = Except.error (notFoundError "Processing run") ∧
    getRun exDBpending 1 2 = Except.error (notFoundError "Processing run") :=
  ⟨((@run_tenant_isolation exDBpending 99 1 0).1 (by decide)).1,
   ((@run_tenant_isolation exDBpending 1 2 0).2 exPendingRun exProject
      (by decide) (by decide) (by decide)).1⟩

/-- C10: `triggerSync` on a non-`teamwork` source fails with the 400
`BadRequest` "Only Teamwork sources can be synced" and changes nothing; on a
`teamwork` source it sets status `syncing` and answers "Sync started", and
the completion step sets status `ready` with `lastSyncAt` and record count
100. -/
theorem triggerSync_spec {db : DB} {sourceId organizationId now : Nat} {src : Source}
    (hv : verifySource db sourceId organizationId = Except.ok src) :
    (src.type ≠ SourceType.teamwork →
        triggerSync db sourceId organizationId now =
          Except.error (badRequestError "Only Teamwork sources can be synced") ∧
        applyTriggerSync db sourceId organizationId now = db) ∧
    (src.type = SourceType.teamwork →
        triggerSync db sourceId organizationId now =
          Except.ok ("Sync started", updateSource db sourceId (fun s =>
            { s with status := SourceStatus.syncing, updatedAt := now }))) ∧
    (∀ (db₂ : DB) (s₂ : Source),
        db₂.sources.find? (fun x => x.id == sourceId) = some s₂ →
        (completeSync db₂ sourceId now).sources.find? (fun x => x.id == sourceId) =
          some { s₂ with status := SourceStatus.ready, lastSyncAt := some now
                         recordCount := some 100, updatedAt := now }) := by
  refine ⟨?_, ?_, ?_⟩
  · intro hne
    have herr : triggerSync db sourceId organizationId now =
        Except.error (badRequestError "Only Teamwork sources can be synced") := by
      unfold triggerSync
      simp only [hv]
      rw [if_neg (by simpa using hne)]
    refine ⟨herr, ?_⟩
    unfold applyTriggerSync
    rw [herr]
  · intro hteam
    unfold triggerSync
    simp only [hv]
    rw [if_pos (by simpa using hteam)]
  · intro db₂ s₂ hf
    have hsid : s₂.id = sourceId := key_eq_of_find? Source.id hf
    unfold completeSync updateSource
    rw [find?_map_key Source.id db₂.sources sourceId
      (fun s => { s with status := SourceStatus.ready, lastSyncAt := some now
                         recordCount := some 100, updatedAt := now }) (fun x => rfl) sourceId]
    rw [hf]
    dsimp only [Option.map_some']
    rw [if_pos (by simpa using hsid)]

/-- C10 (witness): the file source is rejected unchanged; the teamwork source
moves to `syncing`. -/
theorem triggerSync_spec_witness :
    (triggerSync exDBteam 1 1 3 =
        Except.error (badRequestError "Only Teamwork sources can be synced") ∧
      applyTriggerSync exDBteam 1 1 3 = exDBteam) ∧
    triggerSync exDBteam 2 1 3 =
      Except.ok ("Sync started", updateSource exDBteam 2 (fun s =>
        { s with status := SourceStatus.syncing, updatedAt := 3 })) :=
  ⟨(@triggerSync_spec exDBteam 1 1 3 exSource (by decide)).1 (by decide),
   (@triggerSync_spec exDBteam 2 1 3 exTeamworkSource (by decide)).2.1 (by decide)⟩

end Foundry
